import Mathlib

/-!
Verification development for the AI Flashcard Distiller plugin
(`src/main.ts`, with the sanitization variant of `src/unnamed/part_000`).

Strings are modelled as `List Char` (`Str`), paths as forward-slash
separated strings, and the vault (the host content store) as an
association list from paths to file contents.  Fallible host calls are
modelled with `Except`.  JavaScript's `any`-typed provider responses are
modelled by the inductive `JSVal` (arrays and functions, which no claim
touches, are not modelled).
-/

abbrev Str := List Char

/-- JavaScript whitespace class (`\s`, also used by `String.prototype.trim`):
ASCII whitespace plus the Unicode space separators, line/paragraph
separators, NBSP and BOM. -/
def jsWs (c : Char) : Bool :=
  c = ' ' || c = '\t' || c = '\n' || c = '\r' ||
  c.val = 0x0b || c.val = 0x0c || c.val = 0xa0 || c.val = 0x1680 ||
  (0x2000 ≤ c.val && c.val ≤ 0x200a) ||
  c.val = 0x2028 || c.val = 0x2029 || c.val = 0x202f ||
  c.val = 0x205f || c.val = 0x3000 || c.val = 0xfeff

/-- `s.trim()` of JavaScript: drop leading and trailing whitespace. -/
def trimList (s : Str) : Str :=
  ((s.dropWhile jsWs).reverse.dropWhile jsWs).reverse

/-- `r.replace(/\/$/, "")` (main.ts line 79 / 194): remove one trailing
slash if present.  Translated with a match on the reversed list. -/
def stripTrailingSlash (r : Str) : Str :=
  match r.reverse with
  | c :: t => if c = '/' then t.reverse else r
  | [] => r

/-- The spec's words for the same normalization: "with any trailing slash
on `outputRoot` stripped first".  Stated independently of the source
translation so that the two can be compared. -/
def specStripTrailingSlash (r : Str) : Str :=
  if r.getLast? = some '/' then r.dropLast else r

/-- `shouldSkipFile` (main.ts lines 78-88): skip when the path is the
flashcard root, nested under it, or equal to / nested under an excluded
folder (each normalized by removing one trailing slash). -/
def shouldSkipFile (root : Str) (excludedFolders : List Str) (path : Str) : Bool :=
  let r := stripTrailingSlash root
  ((r ++ ['/']).isPrefixOf path || path == r) ||
    excludedFolders.any fun folder =>
      let clean := stripTrailingSlash folder
      path == clean || (clean ++ ['/']).isPrefixOf path

/-- `targetPath` computation of `saveFlashcards` (main.ts lines 194-195):
`root.replace(/\/$/, "") + "/" + original.path`. -/
def targetPath (root : Str) (sourcePath : Str) : Str :=
  stripTrailingSlash root ++ '/' :: sourcePath

/-- `original.path.replace(/\.md$/, "")` (main.ts line 203): remove a
trailing ".md" if present. -/
def stripMdSuffix (p : Str) : Str :=
  if (".md".data).isSuffixOf p then p.take (p.length - 3) else p

/-- The tag marker `"#" + tag + "/"` (main.ts line 98). -/
def tagMarker (tag : Str) : Str :=
  '#' :: (tag ++ ['/'])

/-- The tag line `` `#${tag}/${original.path.replace(/\.md$/, "")}` ``
(main.ts line 203). -/
def mkTagLine (tag : Str) (sourcePath : Str) : Str :=
  tagMarker tag ++ stripMdSuffix sourcePath

/-- The content composed by `saveFlashcards` (main.ts lines 205-210):
tag line, blank line, optional trimmed header with a blank line, then the
sanitized model output. -/
def mkArtifactContent (tag header sourcePath clean : Str) : Str :=
  mkTagLine tag sourcePath ++ '\n' :: '\n' :: [] ++
    (if trimList header = [] then [] else trimList header ++ '\n' :: '\n' :: []) ++
    clean

/-- The vault: an association list from path to file content. -/
abbrev Vault := List (Str × Str)

/-- `vault.getAbstractFileByPath` / `vault.read` combined: the content
stored at a path, if any. -/
def lookupFile (v : Vault) (p : Str) : Option Str :=
  (v.find? fun e => e.1 == p).map fun e => e.2

/-- The commit of `saveFlashcards` (main.ts lines 212-217): `modify` the
existing file in place when one exists, else `create` it. -/
def commitFile (v : Vault) (p c : Str) : Vault :=
  if (lookupFile v p).isSome then
    v.map fun e => if e.1 == p then (p, c) else e
  else
    v ++ [(p, c)]

/-- Case-insensitive literal match at the front (the `i` flag of the
`/^<think>[\s\S]*?<\/think>\s*/i` regex). -/
def iPrefixCI (pat s : Str) : Bool :=
  (pat.map Char.toLower).isPrefixOf (s.map Char.toLower)

/-- Scan for the earliest position where the literal `</think>` starts
(case-insensitive) and return the remainder after it.  This is the lazy
(`[\s\S]*?`) search of the sanitization regex: the span ends at the FIRST
closing tag. -/
def findCloseTag : Str → Option Str
  | [] => none
  | c :: t =>
    if iPrefixCI ("</think>".data) (c :: t) then some ((c :: t).drop 8)
    else findCloseTag t

/-- `text.replace(/^<think>[\s\S]*?<\/think>\s*/i, "")` (part_000 line
148 / main.ts line 137): when the text starts with `<think>` and a
closing tag follows, remove everything through the first closing tag and
the whitespace after it; otherwise the regex does not match and the text
is unchanged. -/
def thinkStrip (text : Str) : Str :=
  if iPrefixCI ("<think>".data) text then
    match findCloseTag (text.drop 7) with
    | some rest => rest.dropWhile jsWs
    | none => text
  else text

/-- The sanitization of `generateFlashcards` in part_000 (lines 148-152):
think-strip, trim, then remove a leading bare `#tag` and trim again. -/
def sanitize (tag text : Str) : Str :=
  let clean := trimList (thinkStrip text)
  let baseTag := '#' :: tag
  if baseTag.isPrefixOf clean then trimList (clean.drop baseTag.length)
  else clean

/-- Sanitization as claim C3 words it: a GREEDY removal of a leading
`<think>...</think>` span (so the span runs through the LAST closing
tag), then the bare-tag strip applied before any trimming, then a final
trim.  Stated from the claim's words for comparison with `sanitize`. -/
def findCloseTagLast : Str → Option Str
  | [] => none
  | c :: t =>
    match findCloseTagLast t with
    | some r => some r
    | none =>
      if iPrefixCI ("</think>".data) (c :: t) then some ((c :: t).drop 8)
      else none

/-- See `findCloseTagLast`: the claim-side sanitization. -/
def sanitizeClaim (tag text : Str) : Str :=
  let afterThink :=
    if iPrefixCI ("<think>".data) text then
      match findCloseTagLast (text.drop 7) with
      | some rest => rest.dropWhile jsWs
      | none => text
    else text
  let baseTag := '#' :: tag
  let afterTag :=
    if baseTag.isPrefixOf afterThink then afterThink.drop baseTag.length
    else afterThink
  trimList afterTag

/-- A JavaScript value as seen by `extractResponseText` (main.ts lines
178-191).  Numbers are modelled as integers; arrays and functions, which
no claim exercises, are not modelled. -/
inductive JSVal where
  | vUndefined : JSVal
  | vNull : JSVal
  | vBool : Bool → JSVal
  | vNum : Int → JSVal
  | vStr : Str → JSVal
  | vObj : List (Str × JSVal) → JSVal

/-- JavaScript truthiness: `undefined`, `null`, `false`, `0` and `""` are
falsy; every object is truthy. -/
def truthy : JSVal → Bool
  | .vUndefined => false
  | .vNull => false
  | .vBool b => b
  | .vNum n => n != 0
  | .vStr s => s != []
  | .vObj _ => true

/-- Property access `obj.k`: the field's value, or `undefined` when the
property is absent. -/
def getField (fields : List (Str × JSVal)) (k : Str) : JSVal :=
  match fields.find? (fun e => e.1 == k) with
  | some e => e.2
  | none => .vUndefined

/-- JavaScript `a || b`: `a` when truthy, else `b`. -/
def jsOr (a b : JSVal) : JSVal :=
  if truthy a then a else b

/-- `String(x)` for the primitive values that can reach the last line of
`extractResponseText`. -/
def jsStringOf : JSVal → Str
  | .vUndefined => "undefined".data
  | .vNull => "null".data
  | .vBool b => if b then "true".data else "false".data
  | .vNum n => (toString n).data
  | .vStr s => s
  | .vObj _ => "[object Object]".data

/-- Escape one character for a JSON string literal. -/
def jsonEscape (c : Char) : Str :=
  if c = '"' then ['\\', '"']
  else if c = '\\' then ['\\', '\\']
  else if c = '\n' then ['\\', 'n']
  else if c = '\t' then ['\\', 't']
  else if c = '\r' then ['\\', 'r']
  else [c]

/-- `n` spaces of indentation. -/
def indentStr (n : Nat) : Str :=
  List.replicate n ' '

mutual

/-- `JSON.stringify(raw, null, 2)` (main.ts line 187): a full structural
dump with two-space indentation.  `undefined`-valued properties are
omitted, as JSON.stringify does. -/
def jsonDump : JSVal → Nat → Str
  | .vUndefined, _ => "null".data
  | .vNull, _ => "null".data
  | .vBool b, _ => if b then "true".data else "false".data
  | .vNum n, _ => (toString n).data
  | .vStr s, _ => '"' :: (s.flatMap jsonEscape ++ ['"'])
  | .vObj [], _ => "{}".data
  | .vObj (e :: fs), ind =>
    '{' :: '\n' :: (jsonDumpFields (e :: fs) (ind + 2) ++
      '\n' :: (indentStr ind ++ ['}']))

/-- The comma-and-newline separated field list of `jsonDump`. -/
def jsonDumpFields : List (Str × JSVal) → Nat → Str
  | [], _ => []
  | (k, v) :: fs, ind =>
    let entry := indentStr ind ++ '"' :: (k.flatMap jsonEscape ++ '"' :: ':' :: ' ' :: jsonDump v ind)
    match fs with
    | [] => entry
    | _ :: _ => entry ++ ',' :: '\n' :: jsonDumpFields fs ind

end

/-- The ordered probe fields of `extractResponseText` (main.ts line 183). -/
def probeNames : List Str :=
  ["text".data, "content".data, "message".data, "response".data, "data".data, "result".data]

/-- The part of `extractResponseText` after the leading non-empty-string
check (main.ts lines 180-190). -/
def extractResponseTextRest (raw : JSVal) (accumulated : Str) : Option Str :=
  if accumulated ≠ [] then some accumulated
  else
    match raw with
    | .vObj fs =>
      let text :=
        jsOr (getField fs ("text".data))
          (jsOr (getField fs ("content".data))
            (jsOr (getField fs ("message".data))
              (jsOr (getField fs ("response".data))
                (jsOr (getField fs ("data".data)) (getField fs ("result".data))))))
      match text with
      | .vStr s => some s
      | _ => some (jsonDump (.vObj fs) 0)
    | _ => if truthy raw then some (jsStringOf raw) else none

/-- `extractResponseText(raw, accumulated)` (main.ts lines 178-191):
a non-empty string result is used as-is (`typeof raw === "string" &&
raw.length > 0`); everything afterwards is `extractResponseTextRest`. -/
def extractResponseText (raw : JSVal) (accumulated : Str) : Option Str :=
  match raw with
  | .vStr s => if s ≠ [] then some s else extractResponseTextRest (.vStr s) accumulated
  | _ => extractResponseTextRest raw accumulated

/-- Extraction as claim C4 words it: (a) a non-empty string result; (b) a
non-empty accumulated buffer; (c) for a structured object, the first
non-empty STRING among the ordered probe fields; (d) for a non-null
object with no matching field, a structural dump; (e) for any other
non-null value, its stringification; (f) else null.  Stated from the
claim's words for comparison with `extractResponseText`. -/
def extractClaim (raw : JSVal) (accumulated : Str) : Option Str :=
  match raw with
  | .vStr s =>
    if s ≠ [] then some s
    else if accumulated ≠ [] then some accumulated
    else some (jsStringOf (.vStr s))
  | .vObj fs =>
    if accumulated ≠ [] then some accumulated
    else
      match (probeNames.map (getField fs)).find?
          (fun v => match v with | .vStr s => s ≠ [] | _ => false) with
      | some (.vStr s) => some s
      | _ => some (jsonDump (.vObj fs) 0)
  | .vNull =>
    if accumulated ≠ [] then some accumulated else none
  | other =>
    if accumulated ≠ [] then some accumulated else some (jsStringOf other)

/-- Extraction as the amended claim words it: in case (c) the probe takes
the FIRST TRUTHY field value — defaulting to the last probe field's value
when none is truthy — and uses it only when it is a string (possibly
empty), else the structural dump; and in case (e) any other value is
stringified only when truthy, else the result is null. -/
def extractAmendedSpec (raw : JSVal) (accumulated : Str) : Option Str :=
  match raw with
  | .vStr s =>
    if s ≠ [] then some s
    else if accumulated ≠ [] then some accumulated
    else none
  | .vObj fs =>
    if accumulated ≠ [] then some accumulated
    else
      let vals := probeNames.map (getField fs)
      match (vals.find? truthy).getD (vals.getLastD .vUndefined) with
      | .vStr s => some s
      | _ => some (jsonDump (.vObj fs) 0)
  | other =>
    if accumulated ≠ [] then some accumulated
    else if truthy other then some (jsStringOf other) else none

/-- Terminal state of one pipeline invocation (`generateFlashcards`,
part_000 lines 125-197): skipped on the path check, skipped on the
content check, failed on empty/unextractable response, failed when
nothing is left after sanitization, or committed successfully. -/
inductive Outcome where
  | skippedPath : Outcome
  | skippedContent : Outcome
  | failedEmptyResponse : Outcome
  | failedEmptyAfterClean : Outcome
  | done : Outcome
deriving DecidableEq

/-- One end-to-end run of `generateFlashcards` followed by
`saveFlashcards` (part_000 lines 125-197 and 210-236), with the source
content, the provider's raw result and the accumulated streaming buffer
given as inputs and the vault threaded explicitly. -/
def runPipeline (root : Str) (excludedFolders : List Str) (tag header : Str)
    (srcPath srcContent : Str) (raw : JSVal) (accumulated : Str)
    (v : Vault) : Vault × Outcome :=
  if shouldSkipFile root excludedFolders srcPath then (v, .skippedPath)
  else
    let ct := trimList srcContent
    if ct = [] then (v, .skippedContent)
    else if (tagMarker tag).isPrefixOf ct then (v, .skippedContent)
    else
      match extractResponseText raw accumulated with
      | none => (v, .failedEmptyResponse)
      | some text =>
        if trimList text = [] then (v, .failedEmptyResponse)
        else
          let clean := sanitize tag text
          if clean = [] then (v, .failedEmptyAfterClean)
          else
            (commitFile v (targetPath root srcPath)
              (mkArtifactContent tag header srcPath clean), .done)

/-- Host file-system errors that `vault.createFolder` may raise. -/
inductive FsError where
  | alreadyExists : FsError
  | other : Str → FsError
deriving DecidableEq

/-- `createFolder(folderPath).catch(() => { })` (main.ts line 200): the
catch handler turns ANY rejection into success. -/
def swallowFolderError (r : Except FsError Unit) : Except FsError Unit :=
  match r with
  | .ok _ => .ok ()
  | .error _ => .ok ()

/-- `saveFlashcards` with the outcome of the host's folder creation made
explicit (main.ts lines 193-218): the folder-creation result passes
through the catch handler, then the artifact is committed. -/
def saveFlashcardsFallible (folderRes : Except FsError Unit) (v : Vault)
    (root tag header srcPath clean : Str) : Except FsError Vault :=
  match swallowFolderError folderRes with
  | .ok _ =>
    .ok (commitFile v (targetPath root srcPath)
      (mkArtifactContent tag header srcPath clean))
  | .error e => .error e

/-! ## Helper lemmas -/

theorem stripTrailingSlash_eq_spec (r : Str) :
    stripTrailingSlash r = specStripTrailingSlash r := by
  unfold stripTrailingSlash specStripTrailingSlash
  rcases h : r.reverse with _ | ⟨c, t⟩
  · have hr : r = [] := by
      have := congrArg List.reverse h
      simpa using this
    subst hr
    simp
  · have hr : r = t.reverse ++ [c] := by
      have := congrArg List.reverse h
      simpa using this
    have hlast : r.getLast? = some c := by
      rw [← List.head?_reverse, h]
      rfl
    have hm : (match c :: t with
        | c :: t => if c = '/' then t.reverse else r
        | [] => r) = if c = '/' then t.reverse else r := rfl
    rw [hm]
    by_cases hc : c = '/'
    · rw [if_pos hc, hlast, if_pos (by rw [hc]), hr, hc]
      simp
    · rw [if_neg hc, hlast, if_neg (by simpa using hc)]

theorem stripTrailingSlash_of_getLast_ne (r : Str) (h : r.getLast? ≠ some '/') :
    stripTrailingSlash r = r := by
  rw [stripTrailingSlash_eq_spec, specStripTrailingSlash, if_neg h]

theorem dropWhile_append_keep (r p : Str)
    (hp : ∀ c, p.head? = some c → jsWs c = false) :
    (r ++ p).dropWhile jsWs = r.dropWhile jsWs ++ p := by
  induction r with
  | nil =>
    rcases p with _ | ⟨c, t⟩
    · rfl
    · simp [List.dropWhile_cons, hp c rfl]
  | cons c r ih =>
    rw [List.cons_append, List.dropWhile_cons, List.dropWhile_cons]
    by_cases h : jsWs c
    · simp [h, ih]
    · simp [h]

theorem prefix_trimList_append (p X : Str) (hne : p ≠ [])
    (h1 : ∀ c, p.head? = some c → jsWs c = false)
    (h2 : ∀ c, p.getLast? = some c → jsWs c = false) :
    p <+: trimList (p ++ X) := by
  rcases p with _ | ⟨c, p'⟩
  · exact absurd rfl hne
  · unfold trimList
    have hdrop : ((c :: p') ++ X).dropWhile jsWs = (c :: p') ++ X := by
      rw [List.cons_append, List.dropWhile_cons, if_neg]
      simp [h1 c rfl]
    rw [hdrop]
    have hrev : ((c :: p') ++ X).reverse = X.reverse ++ (c :: p').reverse := by
      simp
    rw [hrev]
    have hdrop2 : (X.reverse ++ (c :: p').reverse).dropWhile jsWs =
        X.reverse.dropWhile jsWs ++ (c :: p').reverse := by
      refine dropWhile_append_keep _ _ ?_
      intro d hd
      rw [List.head?_reverse] at hd
      exact h2 d hd
    rw [hdrop2, List.reverse_append, List.reverse_reverse]
    exact List.prefix_append _ _

theorem dropWhile_idem (p : Char → Bool) (l : Str) :
    (l.dropWhile p).dropWhile p = l.dropWhile p := by
  induction l with
  | nil => rfl
  | cons c t ih =>
    rw [List.dropWhile_cons]
    by_cases h : p c
    · simp [h, ih]
    · simp [List.dropWhile_cons, h]

theorem trimList_dropWhile (l : Str) :
    trimList (l.dropWhile jsWs) = trimList l := by
  unfold trimList
  rw [dropWhile_idem]

theorem stripMdSuffix_append (stem : Str) :
    stripMdSuffix (stem ++ (".md".data)) = stem := by
  unfold stripMdSuffix
  rw [if_pos (List.isSuffixOf_iff_suffix.mpr (List.suffix_append _ _))]
  have hlen : (stem ++ (".md".data)).length - 3 = stem.length := by
    have h3 : (".md".data : Str).length = 3 := rfl
    rw [List.length_append, h3]
    omega
  rw [hlen]
  have := List.take_left stem (".md".data)
  exact this

theorem lookupFile_cons (e : Str × Str) (t : Vault) (p : Str) :
    lookupFile (e :: t) p = if e.1 == p then some e.2 else lookupFile t p := by
  unfold lookupFile
  rw [List.find?_cons]
  cases h : (e.1 == p) <;> simp [h]

theorem lookupFile_commitFile_self (v : Vault) (p c : Str) :
    lookupFile (commitFile v p c) p = some c := by
  unfold commitFile
  by_cases h : (lookupFile v p).isSome
  · rw [if_pos h]
    induction v with
    | nil => simp [lookupFile] at h
    | cons e t ih =>
      rw [List.map_cons]
      by_cases he : e.1 = p
      · have he2 : (if e.1 == p then (p, c) else e) = (p, c) := by simp [he]
        rw [he2, lookupFile_cons]
        simp
      · have hbeq : (e.1 == p) = false := by simpa using he
        have he2 : (if e.1 == p then (p, c) else e) = e := by rw [hbeq]; rfl
        rw [he2, lookupFile_cons, if_neg (by simp [hbeq])]
        have h' : (lookupFile t p).isSome := by
          rw [lookupFile_cons, if_neg (by simp [hbeq])] at h
          exact h
        exact ih h'
  · rw [if_neg h]
    induction v with
    | nil =>
      rw [List.nil_append, lookupFile_cons]
      simp [lookupFile]
    | cons e t ih =>
      rw [List.cons_append, lookupFile_cons]
      by_cases he : e.1 = p
      · exact absurd (by rw [lookupFile_cons, if_pos (by simp [he])]; simp) h
      · have hbeq : (e.1 == p) = false := by simpa using he
        rw [if_neg (by simp [hbeq])]
        have h' : ¬(lookupFile t p).isSome := by
          rw [lookupFile_cons, if_neg (by simp [hbeq])] at h
          exact h
        exact ih h'

/-! ## Claim C1: the skip decision -/

/-- C1 counterexample: with output root `"Flashcards"` and excluded
folders `["Templates"]`, the path `"Templates/Daily.md"` is skipped even
though it neither equals the normalized root nor starts with it — so the
claimed "if and only if" over every configuration fails. -/
theorem c1_counterexample :
    shouldSkipFile ("Flashcards".data) [("Templates".data)] ("Templates/Daily.md".data) = true ∧
    ("Templates/Daily.md".data : Str) ≠ specStripTrailingSlash ("Flashcards".data) ∧
    ¬ (specStripTrailingSlash ("Flashcards".data) ++ ['/']) <+: ("Templates/Daily.md".data : Str) := by
  refine ⟨by decide, by decide, ?_⟩
  decide

/-- C1 amended: `shouldSkip(p, config)` is true iff `p` equals the
normalized output root or starts with it plus `"/"`, OR `p` equals or is
nested under a normalized entry of `config.excludedPaths`. -/
theorem c1_amended (root : Str) (excludedFolders : List Str) (p : Str) :
    shouldSkipFile root excludedFolders p = true ↔
      ((p = specStripTrailingSlash root ∨
          (specStripTrailingSlash root ++ ['/']) <+: p) ∨
        ∃ f ∈ excludedFolders,
          p = specStripTrailingSlash f ∨ (specStripTrailingSlash f ++ ['/']) <+: p) := by
  simp only [shouldSkipFile, stripTrailingSlash_eq_spec, Bool.or_eq_true,
    List.any_eq_true, List.isPrefixOf_iff_prefix, beq_iff_eq]
  aesop

/-! ## Claim C5: the destination path -/

/-- C5: for every source path not skipped, the destination equals the
output root with its trailing slash stripped, then `"/"`, then the source
path; and the computation is deterministic. -/
theorem c5_destination (root : Str) (excludedFolders : List Str) (p : Str)
    (h : shouldSkipFile root excludedFolders p = false) :
    targetPath root p = specStripTrailingSlash root ++ '/' :: p ∧
    targetPath root p = targetPath root p := by
  refine ⟨?_, rfl⟩
  rw [targetPath, stripTrailingSlash_eq_spec]

/-- C5 witness at root `"Flashcards"`, exclusions `["Templates"]` and
source path `"Books/Fables.md"`. -/
theorem c5_destination_witness :
    targetPath ("Flashcards".data) ("Books/Fables.md".data) =
      specStripTrailingSlash ("Flashcards".data) ++ '/' :: ("Books/Fables.md".data) ∧
    targetPath ("Flashcards".data) ("Books/Fables.md".data) =
      targetPath ("Flashcards".data) ("Books/Fables.md".data) :=
  c5_destination ("Flashcards".data) [("Templates".data)] ("Books/Fables.md".data) (by decide)

/-! ## Claim C8: segment-based nesting -/

/-- C8: the nesting test compares against `root ++ "/"`, so a sibling
folder whose name merely extends the root's name is not skipped: for a
root without trailing slash and a path `root ++ e ++ "/" ++ q` whose
extension `e` is non-empty and does not start with `"/"`, the skip
decision (with no exclusions) is false; in particular
`"Flashcards2/note.md"` is not skipped under root `"Flashcards"`. -/
theorem c8_segment (r e q : Str)
    (h1 : r.getLast? ≠ some '/') (h2 : e ≠ []) (h3 : e.head? ≠ some '/') :
    shouldSkipFile r [] (r ++ e ++ '/' :: q) = false ∧
    shouldSkipFile ("Flashcards".data) [] ("Flashcards2/note.md".data) = false := by
  refine ⟨?_, by decide⟩
  unfold shouldSkipFile
  rw [stripTrailingSlash_of_getLast_ne r h1]
  simp only [List.any_nil, Bool.or_false, Bool.or_eq_false_iff]
  constructor
  · rw [Bool.eq_false_iff]
    intro hpre
    rw [List.isPrefixOf_iff_prefix, List.append_assoc, List.prefix_append_right_inj] at hpre
    rcases e with _ | ⟨c, e'⟩
    · exact h2 rfl
    · rcases hpre with ⟨t, ht⟩
      rw [List.cons_append] at ht
      have : c = '/' := by
        have := congrArg List.head? ht
        simpa using this.symm
      exact h3 (by simp [this])
  · rw [Bool.eq_false_iff]
    intro heq
    rw [beq_iff_eq] at heq
    have hlen := congrArg List.length heq
    simp [List.length_append] at hlen

/-- C8 witness at root `"Flashcards"`, extension `"2"`, remainder
`"note.md"`. -/
theorem c8_segment_witness :
    shouldSkipFile ("Flashcards".data) []
        (("Flashcards".data) ++ ("2".data) ++ '/' :: ("note.md".data)) = false ∧
    shouldSkipFile ("Flashcards".data) [] ("Flashcards2/note.md".data) = false :=
  c8_segment ("Flashcards".data) ("2".data) ("note.md".data)
    (by decide) (by decide) (by decide)

/-! ## Claim C2: the committed artifact content -/

/-- C2: committing an artifact for a source path `stem ++ ".md"` stores
exactly `tagLine ++ "\n\n" ++ (headerText.trim ++ "\n\n" when non-empty)
++ sanitizedText`, with `tagLine = "#" ++ tagLabel ++ "/" ++ stem` (the
source path with its extension suffix removed; the pipeline only commits
`.md` sources).  Scenario A: source path `"Books/Fables.md"`, output root
`"Flashcards"` and tag `"flashcards"` yield destination
`"Flashcards/Books/Fables.md"` and tag line `"#flashcards/Books/Fables"`. -/
theorem c2_artifact_content (root tag header stem clean : Str) (v : Vault) :
    lookupFile
        (commitFile v (targetPath root (stem ++ (".md".data)))
          (mkArtifactContent tag header (stem ++ (".md".data)) clean))
        (targetPath root (stem ++ (".md".data))) =
      some (('#' :: (tag ++ '/' :: stem)) ++ '\n' :: '\n' :: [] ++
        (if trimList header = [] then [] else trimList header ++ '\n' :: '\n' :: []) ++
        clean) ∧
    targetPath ("Flashcards".data) ("Books/Fables.md".data) =
      ("Flashcards/Books/Fables.md".data) ∧
    mkTagLine ("flashcards".data) ("Books/Fables.md".data) =
      ("#flashcards/Books/Fables".data) := by
  refine ⟨?_, by decide, by decide⟩
  rw [lookupFile_commitFile_self]
  unfold mkArtifactContent mkTagLine tagMarker
  rw [stripMdSuffix_append]
  simp

/-! ## Claim C3: sanitization -/

/-- C3 counterexample: the sanitization regex `[\s\S]*?` is LAZY, so the
removed span ends at the FIRST closing tag, not the last one as the
claimed greedy removal would; and the bare-tag strip runs after a trim,
not before, so a response with leading whitespace before the echoed tag
still loses it.  `sanitizeClaim` follows the claim's words. -/
theorem c3_counterexample :
    sanitize ("flashcards".data) ("<think>a</think>b</think>Front :: Back".data) =
      ("b</think>Front :: Back".data) ∧
    sanitizeClaim ("flashcards".data) ("<think>a</think>b</think>Front :: Back".data) =
      ("Front :: Back".data) ∧
    sanitize ("flashcards".data) (" #flashcards\nFront :: Back".data) =
      ("Front :: Back".data) ∧
    sanitizeClaim ("flashcards".data) (" #flashcards\nFront :: Back".data) =
      ("#flashcards\nFront :: Back".data) := by
  exact ⟨by decide, by decide, by decide, by decide⟩

/-- C3 amended: sanitization removes a leading `<think>...</think>` span
MINIMALLY — through the first closing tag (case-insensitive) — together
with the whitespace after it, trims, then removes a leading bare
`#tagLabel` if present and trims again; both of the claim's examples
hold, as does the leading-whitespace variant. -/
theorem c3_amended (tag pre rest : Str)
    (h : findCloseTag (pre ++ ("</think>".data) ++ rest) = some rest) :
    sanitize tag (("<think>".data) ++ pre ++ ("</think>".data) ++ rest) =
      (if ('#' :: tag).isPrefixOf (trimList rest) then
        trimList ((trimList rest).drop (tag.length + 1))
      else trimList rest) ∧
    sanitize ("flashcards".data) ("<think>scratch</think>\n\nFront :: Back".data) =
      ("Front :: Back".data) ∧
    sanitize ("flashcards".data) ("#flashcards\nFront :: Back".data) =
      ("Front :: Back".data) := by
  refine ⟨?_, by decide, by decide⟩
  have hassoc : ("<think>".data) ++ pre ++ ("</think>".data) ++ rest =
      ("<think>".data) ++ (pre ++ ("</think>".data) ++ rest) := by
    simp [List.append_assoc]
  rw [hassoc]
  have hpre : iPrefixCI ("<think>".data)
      (("<think>".data) ++ (pre ++ ("</think>".data) ++ rest)) = true := by
    unfold iPrefixCI
    rw [List.isPrefixOf_iff_prefix, List.map_append]
    exact List.prefix_append _ _
  have hdrop : ((("<think>".data) ++ (pre ++ ("</think>".data) ++ rest)).drop 7) =
      pre ++ ("</think>".data) ++ rest := by
    rw [show (7 : Nat) = ("<think>".data : Str).length from rfl, List.drop_left]
  simp only [sanitize, thinkStrip, hpre, if_true, hdrop, h]
  rw [trimList_dropWhile]
  rfl

/-- C3 amended witness at tag `"flashcards"`, reasoning block
`"scratch"`, remainder `"\n\nFront :: Back"`. -/
theorem c3_amended_witness :
    sanitize ("flashcards".data)
        (("<think>".data) ++ ("scratch".data) ++ ("</think>".data) ++
          ("\n\nFront :: Back".data)) =
      (if ('#' :: ("flashcards".data)).isPrefixOf (trimList ("\n\nFront :: Back".data)) then
        trimList ((trimList ("\n\nFront :: Back".data)).drop (("flashcards".data : Str).length + 1))
      else trimList ("\n\nFront :: Back".data)) ∧
    sanitize ("flashcards".data) ("<think>scratch</think>\n\nFront :: Back".data) =
      ("Front :: Back".data) ∧
    sanitize ("flashcards".data) ("#flashcards\nFront :: Back".data) =
      ("Front :: Back".data) :=
  c3_amended ("flashcards".data) ("scratch".data) ("\n\nFront :: Back".data) (by decide)

/-! ## Claim C4: response-text extraction -/

/-- The `a || b || ...` probe chain equals "first truthy value, else the
last operand". -/
theorem jsOr_chain (v1 v2 v3 v4 v5 v6 : JSVal) :
    jsOr v1 (jsOr v2 (jsOr v3 (jsOr v4 (jsOr v5 v6)))) =
      (([v1, v2, v3, v4, v5, v6].find? truthy).getD
        ([v1, v2, v3, v4, v5, v6].getLastD .vUndefined)) := by
  cases h1 : truthy v1 <;> cases h2 : truthy v2 <;> cases h3 : truthy v3 <;>
    cases h4 : truthy v4 <;> cases h5 : truthy v5 <;> cases h6 : truthy v6 <;>
      simp [jsOr, List.find?_cons, List.getLastD, h1, h2, h3, h4, h5, h6]

/-- C4 counterexample: for `{text: 42, content: "hello"}` the claimed
precedence picks `"hello"` (the first non-empty STRING among the
probes), but the code's `||` chain stops at the truthy non-string `42`
and falls back to the structural dump; and for the raw result `0` the
claim prescribes the stringification `"0"` while the code returns null.
`extractClaim` follows the claim's words. -/
theorem c4_counterexample :
    extractClaim (.vObj [(("text".data), .vNum 42), (("content".data), .vStr ("hello".data))])
        [] = some ("hello".data) ∧
    extractResponseText
        (.vObj [(("text".data), .vNum 42), (("content".data), .vStr ("hello".data))]) [] ≠
      some ("hello".data) ∧
    extractClaim (.vNum 0) [] = some ("0".data) ∧
    extractResponseText (.vNum 0) [] = none := by
  exact ⟨by decide, by decide, by decide, by decide⟩

/-- C4 amended: the extraction precedence is (a) a non-empty string
result; (b) a non-empty accumulated buffer; (c) for a structured object,
the first TRUTHY probe-field value — defaulting to the last probe field's
value when none is truthy — used when it is a string (possibly empty);
(d) else a full structural dump of the object; (e) for any other TRUTHY
value, its stringification; (f) else null. -/
theorem c4_amended (raw : JSVal) (accumulated : Str) :
    extractResponseText raw accumulated = extractAmendedSpec raw accumulated := by
  cases raw with
  | vStr s =>
    by_cases hs : s = []
    · subst hs
      by_cases ha : accumulated = [] <;>
        simp [extractResponseText, extractResponseTextRest, extractAmendedSpec, truthy, ha]
    · simp [extractResponseText, extractAmendedSpec, hs]
  | vObj fs =>
    by_cases ha : accumulated = []
    · simp only [extractResponseText, extractResponseTextRest, extractAmendedSpec, ha,
        ne_eq, not_true_eq_false, if_false, probeNames, List.map_cons, List.map_nil,
        jsOr_chain]
    · simp [extractResponseText, extractResponseTextRest, extractAmendedSpec, ha]
  | vUndefined =>
    by_cases ha : accumulated = [] <;>
      simp [extractResponseText, extractResponseTextRest, extractAmendedSpec, truthy, ha]
  | vNull =>
    by_cases ha : accumulated = [] <;>
      simp [extractResponseText, extractResponseTextRest, extractAmendedSpec, truthy, ha]
  | vBool b =>
    by_cases ha : accumulated = [] <;>
      simp [extractResponseText, extractResponseTextRest, extractAmendedSpec, truthy, ha]
  | vNum n =>
    by_cases ha : accumulated = [] <;>
      simp [extractResponseText, extractResponseTextRest, extractAmendedSpec, truthy, ha]

/-! ## The pipeline's shape -/

/-- A run of the pipeline either leaves the vault untouched with a
non-success outcome, or commits one fixed artifact (independent of the
prior vault) at the destination path. -/
theorem runPipeline_shape (root : Str) (excludedFolders : List Str)
    (tag header srcPath srcContent : Str) (raw : JSVal) (accumulated : Str) :
    (∃ o, o ≠ Outcome.done ∧ ∀ v : Vault,
      runPipeline root excludedFolders tag header srcPath srcContent raw accumulated v =
        (v, o)) ∨
    (∃ art, ∀ v : Vault,
      runPipeline root excludedFolders tag header srcPath srcContent raw accumulated v =
        (commitFile v (targetPath root srcPath) art, Outcome.done)) := by
  by_cases h1 : shouldSkipFile root excludedFolders srcPath = true
  · exact Or.inl ⟨.skippedPath, by decide, fun v => by simp [runPipeline, h1]⟩
  · rw [Bool.not_eq_true] at h1
    by_cases h2 : trimList srcContent = []
    · exact Or.inl ⟨.skippedContent, by decide, fun v => by simp [runPipeline, h1, h2]⟩
    · by_cases h3 : (tagMarker tag).isPrefixOf (trimList srcContent) = true
      · exact Or.inl ⟨.skippedContent, by decide, fun v => by simp [runPipeline, h1, h2, h3]⟩
      · rw [Bool.not_eq_true] at h3
        cases hE : extractResponseText raw accumulated with
        | none =>
          exact Or.inl ⟨.failedEmptyResponse, by decide,
            fun v => by simp [runPipeline, h1, h2, h3, hE]⟩
        | some t =>
          by_cases h4 : trimList t = []
          · exact Or.inl ⟨.failedEmptyResponse, by decide,
              fun v => by simp [runPipeline, h1, h2, h3, hE, h4]⟩
          · by_cases h5 : sanitize tag t = []
            · exact Or.inl ⟨.failedEmptyAfterClean, by decide,
                fun v => by simp [runPipeline, h1, h2, h3, hE, h4, h5]⟩
            · exact Or.inr ⟨mkArtifactContent tag header srcPath (sanitize tag t),
                fun v => by simp [runPipeline, h1, h2, h3, hE, h4, h5]⟩

/-! ## Claim C6: idempotent overwrite -/

/-- C6: when a run succeeds, running again with the same source item,
content, configuration and model response succeeds too and leaves a
byte-identical artifact; and a successful run started from ANY prior
vault state (for example one holding an older artifact at the
destination) stores those same bytes — the commit replaces, it does not
append or merge. -/
theorem c6_idempotent (root : Str) (excludedFolders : List Str)
    (tag header srcPath srcContent : Str) (raw : JSVal) (accumulated : Str)
    (v v' : Vault)
    (h : (runPipeline root excludedFolders tag header srcPath srcContent raw accumulated v).2 =
      Outcome.done) :
    (runPipeline root excludedFolders tag header srcPath srcContent raw accumulated
      ((runPipeline root excludedFolders tag header srcPath srcContent raw accumulated v).1)).2 =
      Outcome.done ∧
    lookupFile
        (runPipeline root excludedFolders tag header srcPath srcContent raw accumulated
          ((runPipeline root excludedFolders tag header srcPath srcContent raw accumulated v).1)).1
        (targetPath root srcPath) =
      lookupFile
        (runPipeline root excludedFolders tag header srcPath srcContent raw accumulated v).1
        (targetPath root srcPath) ∧
    (runPipeline root excludedFolders tag header srcPath srcContent raw accumulated v').2 =
      Outcome.done ∧
    lookupFile (runPipeline root excludedFolders tag header srcPath srcContent raw accumulated v').1
        (targetPath root srcPath) =
      lookupFile
        (runPipeline root excludedFolders tag header srcPath srcContent raw accumulated v).1
        (targetPath root srcPath) := by
  rcases runPipeline_shape root excludedFolders tag header srcPath srcContent raw accumulated with
    ⟨o, ho, hall⟩ | ⟨art, hall⟩
  · rw [hall v] at h
    exact absurd h ho
  · rw [hall v, hall v', hall (commitFile v (targetPath root srcPath) art)]
    refine ⟨rfl, ?_, rfl, ?_⟩
    · rw [lookupFile_commitFile_self, lookupFile_commitFile_self]
    · rw [lookupFile_commitFile_self, lookupFile_commitFile_self]

/-- C6 witness: root `"Flashcards"`, tag `"flashcards"`, source
`"Books/Fables.md"`, response `"Front :: Back"`, first vault empty and
the other vault holding an older artifact at the destination. -/
theorem c6_idempotent_witness :
    (runPipeline ("Flashcards".data) [("Templates".data)] ("flashcards".data) []
      ("Books/Fables.md".data) ("Note text".data) (.vStr ("Front :: Back".data)) []
      ((runPipeline ("Flashcards".data) [("Templates".data)] ("flashcards".data) []
        ("Books/Fables.md".data) ("Note text".data) (.vStr ("Front :: Back".data)) [] []).1)).2 =
      Outcome.done ∧
    lookupFile
        (runPipeline ("Flashcards".data) [("Templates".data)] ("flashcards".data) []
          ("Books/Fables.md".data) ("Note text".data) (.vStr ("Front :: Back".data)) []
          ((runPipeline ("Flashcards".data) [("Templates".data)] ("flashcards".data) []
            ("Books/Fables.md".data) ("Note text".data) (.vStr ("Front :: Back".data)) [] []).1)).1
        (targetPath ("Flashcards".data) ("Books/Fables.md".data)) =
      lookupFile
        (runPipeline ("Flashcards".data) [("Templates".data)] ("flashcards".data) []
          ("Books/Fables.md".data) ("Note text".data) (.vStr ("Front :: Back".data)) [] []).1
        (targetPath ("Flashcards".data) ("Books/Fables.md".data)) ∧
    (runPipeline ("Flashcards".data) [("Templates".data)] ("flashcards".data) []
      ("Books/Fables.md".data) ("Note text".data) (.vStr ("Front :: Back".data)) []
      [(("Flashcards/Books/Fables.md".data), ("OLD CONTENT".data))]).2 = Outcome.done ∧
    lookupFile
        (runPipeline ("Flashcards".data) [("Templates".data)] ("flashcards".data) []
          ("Books/Fables.md".data) ("Note text".data) (.vStr ("Front :: Back".data)) []
          [(("Flashcards/Books/Fables.md".data), ("OLD CONTENT".data))]).1
        (targetPath ("Flashcards".data) ("Books/Fables.md".data)) =
      lookupFile
        (runPipeline ("Flashcards".data) [("Templates".data)] ("flashcards".data) []
          ("Books/Fables.md".data) ("Note text".data) (.vStr ("Front :: Back".data)) [] []).1
        (targetPath ("Flashcards".data) ("Books/Fables.md".data)) :=
  c6_idempotent ("Flashcards".data) [("Templates".data)] ("flashcards".data) []
    ("Books/Fables.md".data) ("Note text".data) (.vStr ("Front :: Back".data)) []
    [] [(("Flashcards/Books/Fables.md".data), ("OLD CONTENT".data))] (by decide)

/-! ## Claim C7: empty response leaves the vault untouched -/

/-- C7: when the extracted text is null or empty after trimming and no
streamed accumulation exists, a run on a processable item terminates in
the empty-response failure state, writes nothing, and leaves any
pre-existing artifact at the destination byte-for-byte unchanged. -/
theorem c7_empty_response (root : Str) (excludedFolders : List Str)
    (tag header srcPath srcContent : Str) (raw : JSVal) (v : Vault)
    (h1 : shouldSkipFile root excludedFolders srcPath = false)
    (h2 : trimList srcContent ≠ [])
    (h3 : (tagMarker tag).isPrefixOf (trimList srcContent) = false)
    (h4 : extractResponseText raw [] = none ∨
      ∃ t, extractResponseText raw [] = some t ∧ trimList t = []) :
    runPipeline root excludedFolders tag header srcPath srcContent raw [] v =
      (v, Outcome.failedEmptyResponse) ∧
    lookupFile (runPipeline root excludedFolders tag header srcPath srcContent raw [] v).1
        (targetPath root srcPath) =
      lookupFile v (targetPath root srcPath) := by
  have hrun : runPipeline root excludedFolders tag header srcPath srcContent raw [] v =
      (v, Outcome.failedEmptyResponse) := by
    rcases h4 with h4 | ⟨t, ht, htt⟩
    · simp [runPipeline, h1, h2, h3, h4]
    · simp [runPipeline, h1, h2, h3, ht, htt]
  exact ⟨hrun, by rw [hrun]⟩

/-- C7 witness: the generation service returns the empty string, the
accumulated buffer is empty, and a pre-existing artifact sits at the
destination path. -/
theorem c7_empty_response_witness :
    runPipeline ("Flashcards".data) [("Templates".data)] ("flashcards".data) []
        ("Books/Fables.md".data) ("Note text".data) (.vStr []) []
        [(("Flashcards/Books/Fables.md".data), ("OLD CONTENT".data))] =
      ([(("Flashcards/Books/Fables.md".data), ("OLD CONTENT".data))],
        Outcome.failedEmptyResponse) ∧
    lookupFile
        (runPipeline ("Flashcards".data) [("Templates".data)] ("flashcards".data) []
          ("Books/Fables.md".data) ("Note text".data) (.vStr []) []
          [(("Flashcards/Books/Fables.md".data), ("OLD CONTENT".data))]).1
        (targetPath ("Flashcards".data) ("Books/Fables.md".data)) =
      lookupFile [(("Flashcards/Books/Fables.md".data), ("OLD CONTENT".data))]
        (targetPath ("Flashcards".data) ("Books/Fables.md".data)) :=
  c7_empty_response ("Flashcards".data) [("Templates".data)] ("flashcards".data) []
    ("Books/Fables.md".data) ("Note text".data) (.vStr [])
    [(("Flashcards/Books/Fables.md".data), ("OLD CONTENT".data))]
    (by decide) (by decide) (by decide) (Or.inl (by decide))

/-! ## Claim C10: feedback-loop prevention by content -/

/-- C10: every committed artifact content begins with the tag marker
`"#" ++ tagLabel ++ "/"` — exactly the prefix the content check tests —
so under an unchanged tag setting, invoking the pipeline on a previously
generated artifact (whatever raw response or accumulation one supplies,
since the run never reaches generation) terminates in the content-check
skip state even when the path-based skip misses it, leaving the vault
untouched. -/
theorem c10_loop_prevention (root : Str) (excludedFolders : List Str)
    (tag header srcPath0 clean0 artifactPath : Str) (raw : JSVal)
    (accumulated : Str) (v : Vault)
    (h1 : shouldSkipFile root excludedFolders artifactPath = false) :
    (tagMarker tag).isPrefixOf (mkArtifactContent tag header srcPath0 clean0) = true ∧
    runPipeline root excludedFolders tag header artifactPath
        (mkArtifactContent tag header srcPath0 clean0) raw accumulated v =
      (v, Outcome.skippedContent) := by
  have hshape : mkArtifactContent tag header srcPath0 clean0 =
      tagMarker tag ++ (stripMdSuffix srcPath0 ++ ('\n' :: '\n' ::
        ((if trimList header = [] then [] else trimList header ++ '\n' :: '\n' :: []) ++
          clean0))) := by
    simp [mkArtifactContent, mkTagLine, List.append_assoc]
  have hp : tagMarker tag <+: trimList (mkArtifactContent tag header srcPath0 clean0) := by
    rw [hshape]
    refine prefix_trimList_append _ _ (by simp [tagMarker]) ?_ ?_
    · intro c hc
      have : c = '#' := by
        have h0 : (tagMarker tag).head? = some '#' := rfl
        rw [h0] at hc
        exact (Option.some_inj.mp hc).symm
      rw [this]
      decide
    · intro c hc
      have h0 : (tagMarker tag).getLast? = some '/' := by
        rw [show tagMarker tag = ('#' :: tag) ++ ['/'] from rfl, List.getLast?_concat]
      rw [h0] at hc
      rw [(Option.some_inj.mp hc).symm]
      decide
  have hct : trimList (mkArtifactContent tag header srcPath0 clean0) ≠ [] := by
    intro h0
    rw [h0] at hp
    rcases hp with ⟨t, ht⟩
    rcases List.append_eq_nil.mp ht with ⟨hm, _⟩
    simp [tagMarker] at hm
  have htag : (tagMarker tag).isPrefixOf
      (trimList (mkArtifactContent tag header srcPath0 clean0)) = true :=
    List.isPrefixOf_iff_prefix.mpr hp
  refine ⟨?_, ?_⟩
  · rw [List.isPrefixOf_iff_prefix, hshape]
    exact List.prefix_append _ _
  · simp [runPipeline, h1, hct, htag]

/-- C10 witness: a prior artifact generated for `"Books/Fables.md"` is
re-submitted under the path `"Notes/Old.md"` (which no path rule skips);
the run stops at the content check. -/
theorem c10_loop_prevention_witness :
    (tagMarker ("flashcards".data)).isPrefixOf
        (mkArtifactContent ("flashcards".data) [] ("Books/Fables.md".data)
          ("Front :: Back".data)) = true ∧
    runPipeline ("Flashcards".data) [("Templates".data)] ("flashcards".data) []
        ("Notes/Old.md".data)
        (mkArtifactContent ("flashcards".data) [] ("Books/Fables.md".data)
          ("Front :: Back".data))
        JSVal.vNull [] [] =
      ([], Outcome.skippedContent) :=
  c10_loop_prevention ("Flashcards".data) [("Templates".data)] ("flashcards".data) []
    ("Books/Fables.md".data) ("Front :: Back".data) ("Notes/Old.md".data)
    JSVal.vNull [] [] (by decide)

/-! ## Claim C9: folder-creation error swallowing -/

/-- C9 counterexample: the commit step's catch handler swallows EVERY
folder-creation error, not only "already exists": an unrelated error
still lets the save proceed, so "swallowed exactly when it indicates the
folder already exists" fails. -/
theorem c9_counterexample :
    saveFlashcardsFallible (.error (.other ("permission denied".data))) []
        ("Flashcards".data) ("flashcards".data) [] ("Books/Fables.md".data)
        ("Front :: Back".data) =
      .ok (commitFile [] (targetPath ("Flashcards".data) ("Books/Fables.md".data))
        (mkArtifactContent ("flashcards".data) [] ("Books/Fables.md".data)
          ("Front :: Back".data))) ∧
    FsError.other ("permission denied".data) ≠ FsError.alreadyExists := by
  exact ⟨rfl, by decide⟩

/-- C9 amended: every outcome of the intermediate-folder creation — a
success, an "already exists" error, or any other error — is swallowed by
the catch handler, and the commit step proceeds to write the artifact;
in particular "already exists" is tolerated and never surfaces. -/
theorem c9_amended (folderRes : Except FsError Unit) (v : Vault)
    (root tag header srcPath clean : Str) :
    saveFlashcardsFallible folderRes v root tag header srcPath clean =
      .ok (commitFile v (targetPath root srcPath)
        (mkArtifactContent tag header srcPath clean)) := by
  cases folderRes with
  | ok u => rfl
  | error e => rfl
